import Mathlib

/-!
Shallow embedding of the chat session store of `src/electron/service/chat.ts`
(class `ChatService`).  Stateful code is embedded by explicit state passing:
filesystem and object-store effects become function arguments, effectful
sources of fresh data (`pub.uuid()`, `pub.time()`, `pub.lang(...)`,
`pub.get_context_path(...)`, `pub.stat(...)`) become explicit parameters.
JavaScript strings are modelled by Lean strings (character level), JavaScript
numbers that hold character counts by `Nat`, and the running token counter of
the trim loops by `Int` (it is decremented and may go below zero in the
source).
-/

/-- The `ChatHistory` record type of `chat.ts` (one history entry).
The free-form `stat` object is abstracted to a string payload. -/
structure ChatHistory where
  id : String
  reasoning : String
  role : String
  content : String
  images : List String
  tool_calls : String
  created_at : String
  create_time : Nat
  stat : String
  tokens : Nat
  search_result : List String
  search_type : Option String
  search_query : Option String
deriving DecidableEq

/-- The `ChatContext` record type of `chat.ts` (current user turn passed to
`build_chat_history`). -/
structure ChatContext where
  role : String
  content : String
  images : List String
  tool_calls : String
deriving DecidableEq

/-- A `{role, content}` projection, the element shape of the list returned by
`build_chat_history` (`contextList.map(item => ({role, content}))`). -/
structure Msg where
  role : String
  content : String
deriving DecidableEq

/-- The conversation config object built by `create_chat`. -/
structure ContextConfig where
  model : String
  title : String
  parameters : String
  contextPath : String
  context_id : String
  create_time : Nat
deriving DecidableEq

/-- JavaScript `s.substring(0, n)`: the first `n` characters of `s`. -/
def jsSubstring (s : String) (n : Nat) : String :=
  String.mk (s.data.take n)

/-- JavaScript `Array.prototype.findIndex`, returning `none` for `-1`. -/
def jsFindIndex {α : Type} (p : α → Bool) : List α → Option Nat
  | [] => none
  | x :: rest => if p x then some 0 else (jsFindIndex p rest).map (· + 1)

/-- Sum of the character lengths of the `content` fields of history entries
(the quantity accumulated by the loop in `build_chat_history`). -/
def histSum (l : List ChatHistory) : Nat :=
  (l.map fun h => h.content.length).sum

/-- Sum of the character lengths of the `content` fields of messages. -/
def msgSum (l : List Msg) : Nat :=
  (l.map fun m => m.content.length).sum

/-- The projection applied by `build_chat_history`:
`item => ({ role: item.role, content: item.content })`. -/
def toMsg (h : ChatHistory) : Msg :=
  { role := h.role, content := h.content }

/-- The trimming loop of `build_chat_history`:
`while (totalTokens > historyMaxContextLength && contextList.length > 0)`
shift the first entry and subtract its `content.length` from the counter. -/
def dropWhileBudget (maxLen : Int) : Int → List ChatHistory → List ChatHistory
  | _, [] => []
  | t, h :: rest =>
      if maxLen < t then dropWhileBudget maxLen (t - (h.content.length : Int)) rest
      else h :: rest

/-- `ChatService.build_chat_history` (chat.ts lines 264-286), with the stored
history list passed explicitly in place of `read_history(uuid)`.
`Math.round(contextLength * 0.5)` on a natural context length equals
`(contextLength + 1) / 2` (round half up).  The source pushes the full
`chatContext` object at the end; the result is modelled at the
`{role, content}` shape its consumers read. -/
def build_chat_history (contextList : List ChatHistory) (chatContext : ChatContext)
    (contextLength : Nat) : List Msg :=
  let totalTokens : Int := (chatContext.content.length : Int) + (histSum contextList : Int)
  let historyMaxContextLength : Int := (((contextLength + 1) / 2 : Nat) : Int)
  let remaining := dropWhileBudget historyMaxContextLength totalTokens contextList
  remaining.map toMsg ++ [{ role := chatContext.role, content := chatContext.content }]

/-- The trimming loop of `save_chat_history`:
`while (totalTokens > historyMaxContextLength && historyList.length > 0)`
shift the first entry and subtract its `tokens` field from the counter. -/
def trimOldest (maxLen : Int) : Int → List ChatHistory → List ChatHistory
  | _, [] => []
  | t, h :: rest =>
      if maxLen < t then trimOldest maxLen (t - (h.tokens : Int)) rest
      else h :: rest

/-- `ChatService.save_chat_history` (chat.ts lines 294-329), with the stored
history list passed explicitly in place of `read_history(uuid)` and the
effects made parameters: `newUuid` is the `pub.uuid()` assigned to
`history.id`, `langInterrupted` is `pub.lang("意外中断")` written into
`historyRes.content` before persisting.  `history.content ? length : 0`
equals `history.content.length` (the empty string is falsy and has length 0),
and `if (regenerate_id)` treats the empty string like `undefined`. -/
def save_chat_history (historyList : List ChatHistory) (history historyRes : ChatHistory)
    (contextLength : Nat) (regenerate_id : Option String)
    (newUuid : String) (langInterrupted : String) : List ChatHistory :=
  let history2 := { history with id := newUuid, tokens := history.content.length }
  let totalTokens : Int := (history2.tokens : Int)
  let historyMaxContextLength : Int := (((contextLength + 1) / 2 : Nat) : Int)
  let historyRes2 := { historyRes with content := langInterrupted }
  let afterBranch :=
    match regenerate_id with
    | some rid =>
        if rid = "" then historyList ++ [history2]
        else
          match jsFindIndex (fun item => item.id == rid) historyList with
          | some index => historyList.take index
          | none => historyList
    | none => historyList ++ [history2]
  trimOldest historyMaxContextLength totalTokens (afterBranch ++ [historyRes2])

/-- `ChatService.set_chat_history` (chat.ts lines 337-342), on the explicit
list: replace the entry whose id matches.  When `findIndex` returns `-1` the
JavaScript assignment `historyList[-1] = history` leaves the array elements
unchanged. -/
def set_chat_history (historyList : List ChatHistory) (id : String)
    (history : ChatHistory) : List ChatHistory :=
  match jsFindIndex (fun item => item.id == id) historyList with
  | some index => historyList.set index history
  | none => historyList

/-- `ChatService.delete_chat_history` (chat.ts lines 388-395), on the explicit
list: `historyList.filter(item => item.id !== id)`. -/
def delete_chat_history (historyList : List ChatHistory) (id : String) : List ChatHistory :=
  historyList.filter fun item => item.id != id

/-- Modelled from the spec: the streaming chat controller that finalises an
aborted turn is not among the provided sources (only the `ChatService`
persistence primitives are).  Per the spec, when the client stops generation
or the upstream errors the turn is persisted with assistant content set to
the localized token for "unexpectedly interrupted" plus whatever assistant
content was buffered; the repository's `set_chat_history` is the correction
primitive that writes an entry by id. -/
def abort_finalize (historyList : List ChatHistory) (historyRes : ChatHistory)
    (langInterrupted buffered : String) : List ChatHistory :=
  set_chat_history historyList historyRes.id
    { historyRes with content := langInterrupted ++ buffered }

/-- Result of `ChatService.readJsonFile`: either the parsed JSON value or the
empty-array fallback. -/
inductive JsonReadResult (J : Type) where
  | emptyArr
  | value (j : J)
deriving DecidableEq

/-- `ChatService.readJsonFile` (chat.ts lines 86-105).  The filesystem is a
map from paths to contents (`none` = `pub.file_exists` false), and
`JSON.parse` is an abstract parser (`none` = the parse throws, caught by the
source and turned into `[]`). -/
def readJsonFile {J : Type} (fs : String → Option String) (parse : String → Option J)
    (filePath : String) : JsonReadResult J :=
  match fs filePath with
  | none => JsonReadResult.emptyArr
  | some fileContent =>
      if fileContent.length = 0 then JsonReadResult.emptyArr
      else
        match parse fileContent with
        | some j => JsonReadResult.value j
        | none => JsonReadResult.emptyArr

/-- `ChatService.create_chat` (chat.ts lines 129-150): the config object it
builds.  `uuid` is the `pub.uuid()` result, `time` the `pub.time()` result
and `getContextPath` the `pub.get_context_path` collaborator. -/
def create_chat (model parameters title : String) (uuid : String) (time : Nat)
    (getContextPath : String → String) : ContextConfig :=
  let title2 := if title.length > 18 then jsSubstring title 18 else title
  { model := model, title := title2, parameters := parameters,
    contextPath := getContextPath uuid, context_id := uuid, create_time := time }

/-- `create_chat` together with the `saveJsonFile` of the config: the object
store for config documents is a map from conversation id to stored config
(`getConfigFilePath` is injective in the uuid). -/
def create_chat_save (store : String → Option ContextConfig)
    (model parameters title uuid : String) (time : Nat)
    (getContextPath : String → String) :
    ContextConfig × (String → Option ContextConfig) :=
  let cfg := create_chat model parameters title uuid time getContextPath
  (cfg, fun u => if u = uuid then some cfg else store u)

/-- `ChatService.read_chat` (chat.ts lines 179-181) over the typed config
store: `none` stands for the empty-array result of `readJsonFile` on a
missing document. -/
def read_chat (store : String → Option ContextConfig) (uuid : String) :
    Option ContextConfig :=
  store uuid

/-- A parsed, non-empty config document as `get_chat_list` sees it:
`create_time` may be absent, the remaining fields are abstracted to a
payload. -/
structure RawConfig where
  create_time : Option Int
  payload : String
deriving DecidableEq

/-- A config document after `get_chat_list` has filled `create_time`. -/
structure FilledConfig where
  create_time : Int
  payload : String
deriving DecidableEq

/-- One directory of the context root as `get_chat_list` reads it: the result
of `readJsonFile` on its `config.json` (`none` when the document is missing,
empty or unparsable, i.e. `Object.keys(..).length === 0`), and the
`stat.birthtime.getTime()` milliseconds of that file (`none` when `pub.stat`
fails). -/
structure DirEntry where
  cfg : Option RawConfig
  birthMs : Option Int
deriving DecidableEq

/-- The `create_time` fill-in of `get_chat_list`: a config lacking
`create_time` gets `Math.floor(stat.birthtime.getTime() / 1000)`, or `0`
when the file cannot be stat'ed. -/
def fillCreateTime (e : DirEntry) (c : RawConfig) : FilledConfig :=
  match c.create_time with
  | some t => { create_time := t, payload := c.payload }
  | none =>
      match e.birthMs with
      | some ms => { create_time := ms.fdiv 1000, payload := c.payload }
      | none => { create_time := 0, payload := c.payload }

/-- The per-directory step of `get_chat_list`: skip empty config documents,
fill `create_time` otherwise. -/
def readEntry (e : DirEntry) : Option FilledConfig :=
  e.cfg.map (fillCreateTime e)

/-- Descending order on `create_time`, the comparator
`(a, b) => b.create_time - a.create_time` of `get_chat_list`. -/
def createTimeGe (a b : FilledConfig) : Prop :=
  b.create_time ≤ a.create_time

instance : DecidableRel createTimeGe :=
  fun a b => inferInstanceAs (Decidable (b.create_time ≤ a.create_time))

instance : IsTotal FilledConfig createTimeGe :=
  ⟨fun a b => le_total b.create_time a.create_time⟩

instance : IsTrans FilledConfig createTimeGe :=
  ⟨fun _ _ _ hab hbc => le_trans hbc hab⟩

/-- `ChatService.get_chat_list` (chat.ts lines 214-246), with the directory
scan passed explicitly: keep the directories whose config document is
non-empty, fill `create_time`, and sort descending by `create_time`
(`contextList.sort((a, b) => b.create_time - a.create_time)`). -/
def get_chat_list (dirs : List DirEntry) : List FilledConfig :=
  List.insertionSort createTimeGe (dirs.filterMap readEntry)

/-- The turn-parity and role-alternation invariant of the spec: even length
and roles `user, assistant` repeating from index 0. -/
def alternating : List ChatHistory → Bool
  | [] => true
  | [_] => false
  | u :: a :: rest => u.role == "user" && a.role == "assistant" && alternating rest

/-- Two-at-a-time induction on history lists, matching the recursion of
`alternating`. -/
def twoStepInduction {motive : List ChatHistory → Prop} (h0 : motive [])
    (h1 : ∀ x, motive [x])
    (h2 : ∀ x y l, motive l → motive (x :: y :: l)) :
    ∀ l, motive l
  | [] => h0
  | [x] => h1 x
  | x :: y :: l => h2 x y l (twoStepInduction h0 h1 h2 l)

/-- A concrete history entry with the given id, role and content; the other
fields take the defaults a fresh turn carries. -/
def mkEntry (id role content : String) : ChatHistory :=
  { id := id, reasoning := "", role := role, content := content, images := [],
    tool_calls := "", created_at := "", create_time := 0, stat := "",
    tokens := content.length, search_result := [], search_type := none,
    search_query := none }

/-- Concrete stored user entry used by counterexamples and witnesses. -/
def ceU : ChatHistory := mkEntry "a" "user" "hi"

/-- Concrete stored assistant entry used by counterexamples and witnesses. -/
def ceA : ChatHistory := mkEntry "b" "assistant" "hello"

/-- Concrete fresh user entry used by counterexamples and witnesses. -/
def ceHu : ChatHistory := mkEntry "" "user" "again"

/-- Concrete fresh assistant entry used by counterexamples and witnesses. -/
def ceHr : ChatHistory := mkEntry "r1" "assistant" ""

/-- Concrete assistant placeholder whose caller-supplied `tokens` field does
not match its final content length. -/
def c7res : ChatHistory := { mkEntry "rr" "assistant" "" with tokens := 5 }

/-- Concrete current user turn with empty content. -/
def ctx0 : ChatContext := { role := "user", content := "", images := [], tool_calls := "" }

/-! Helper lemmas shared by the claim theorems. -/

/-- The trim loops leave the list unchanged when the counter is already within
the budget. -/
theorem trimOldest_of_le {maxLen t : Int} (h : t ≤ maxLen) :
    ∀ l : List ChatHistory, trimOldest maxLen t l = l := by
  intro l
  cases l with
  | nil => rfl
  | cons x rest => simp [trimOldest, not_lt.mpr h]

/-- `save_chat_history` without `regenerate_id` and with the new user content
within the trim budget appends exactly the fresh user entry (with fresh id
and recomputed tokens) and the assistant placeholder. -/
theorem save_no_regen (H : List ChatHistory) (hu hr : ChatHistory)
    (cl : Nat) (uuid tok : String)
    (hb : hu.content.length ≤ (cl + 1) / 2) :
    save_chat_history H hu hr cl none uuid tok
      = H ++ [{ hu with id := uuid, tokens := hu.content.length },
              { hr with content := tok }] := by
  unfold save_chat_history
  have hle : ((hu.content.length : Int)) ≤ (((cl + 1) / 2 : Nat) : Int) := by
    exact_mod_cast hb
  rw [trimOldest_of_le hle]
  simp

/-- `jsFindIndex` over a list that ends in a matching second-to-end pattern:
no match in the prefix, no match on `u`, a match on `r`. -/
theorem jsFindIndex_pair (p : ChatHistory → Bool) (u r : ChatHistory)
    (hu : p u = false) (hr : p r = true) :
    ∀ l : List ChatHistory, (∀ e ∈ l, p e = false) →
      jsFindIndex p (l ++ [u, r]) = some (l.length + 1) := by
  intro l
  induction l with
  | nil =>
      intro _
      simp [jsFindIndex, hu, hr]
  | cons x rest ih =>
      intro hnone
      have hx : p x = false := hnone x (by simp)
      have hrest : ∀ e ∈ rest, p e = false := fun e he => hnone e (by simp [he])
      simp [jsFindIndex, hx, ih hrest]

/-- `List.set` past an unchanged prefix. -/
theorem set_append_add {α : Type} :
    ∀ (l1 l2 : List α) (k : Nat) (x : α),
      (l1 ++ l2).set (l1.length + k) x = l1 ++ l2.set k x := by
  intro l1
  induction l1 with
  | nil => intro l2 k x; simp
  | cons y rest ih => intro l2 k x; simp [List.set, Nat.succ_add, ih]

/-- Appending a well-formed (user, assistant) pair preserves the alternation
invariant. -/
theorem alternating_append_pair (u a : ChatHistory)
    (hu : u.role = "user") (ha : a.role = "assistant") :
    ∀ H : List ChatHistory, alternating H = true →
      alternating (H ++ [u, a]) = true := by
  intro H
  induction H using twoStepInduction with
  | h0 => intro _; simp [alternating, hu, ha]
  | h1 x => intro hx; simp [alternating] at hx
  | h2 x y l ih =>
      intro hxy
      have hxy2 : (x.role == "user") = true ∧ (y.role == "assistant") = true ∧
          alternating l = true := by
        simpa [alternating, Bool.and_eq_true, and_assoc] using hxy
      have hl := ih hxy2.2.2
      show alternating (x :: y :: (l ++ [u, a])) = true
      simp [alternating, hxy2.1, hxy2.2.1, hl]

/-- The drop loop of `build_chat_history` returns a contiguous suffix. -/
theorem dropWhileBudget_suffix (maxLen : Int) :
    ∀ (l : List ChatHistory) (t : Int),
      ∃ k, k ≤ l.length ∧ dropWhileBudget maxLen t l = l.drop k := by
  intro l
  induction l with
  | nil =>
      intro t
      refine ⟨0, Nat.le_refl 0, rfl⟩
  | cons h rest ih =>
      intro t
      by_cases hc : maxLen < t
      · obtain ⟨k, hk, hdrop⟩ := ih (t - (h.content.length : Int))
        refine ⟨k + 1, by simpa using Nat.succ_le_succ hk, ?_⟩
        simp [dropWhileBudget, hc, hdrop]
      · refine ⟨0, Nat.zero_le _, ?_⟩
        simp [dropWhileBudget, hc]

/-- The drop loop of `build_chat_history` either empties the list or stops
with the tracked counter within the budget; `d` is the part of the counter
not accounted for by the list (the current user content length). -/
theorem dropWhileBudget_sum (maxLen d : Int) :
    ∀ (l : List ChatHistory) (t : Int), t = d + (histSum l : Int) →
      dropWhileBudget maxLen t l = [] ∨
        (histSum (dropWhileBudget maxLen t l) : Int) + d ≤ maxLen := by
  intro l
  induction l with
  | nil => intro t _; exact Or.inl rfl
  | cons h rest ih =>
      intro t ht
      have hsum : histSum (h :: rest) = h.content.length + histSum rest := by
        simp [histSum]
      rw [hsum] at ht
      push_cast at ht
      by_cases hc : maxLen < t
      · have ht' : t - (h.content.length : Int) = d + (histSum rest : Int) := by omega
        have := ih (t - (h.content.length : Int)) ht'
        simpa [dropWhileBudget, hc] using this
      · right
        have hle : t ≤ maxLen := not_lt.mp hc
        simp only [dropWhileBudget, if_neg hc]
        rw [hsum]
        push_cast
        omega

/-- `set_chat_history` on a list ending in the addressed entry: the prefix
and the penultimate entry are untouched, the last entry is replaced. -/
theorem set_chat_history_pair (l : List ChatHistory) (u r x : ChatHistory) (id : String)
    (hl : ∀ e ∈ l, (e.id == id) = false)
    (hu : (u.id == id) = false) (hr : (r.id == id) = true) :
    set_chat_history (l ++ [u, r]) id x = l ++ [u, x] := by
  unfold set_chat_history
  rw [jsFindIndex_pair _ u r hu hr l hl]
  have hset := set_append_add l [u, r] 1 x
  simp only [List.set] at hset
  exact hset

/-! Claim theorems. -/

/-- Claim C1, amended: on a save carrying a non-empty `regenerate_id` X whose
first occurrence in the stored history H is at index i, and whose new user
content fits the trim budget, `save_chat_history` produces the entries of H
strictly before the entry with id X, unchanged and in their original order,
followed by ONLY the fresh assistant entry (whose content is the
interrupted-placeholder token); the fresh user entry is not appended. -/
theorem claim1_regenerate_truncates (H : List ChatHistory) (hu hr : ChatHistory)
    (cl : Nat) (rid uuid tok : String) (i : Nat)
    (hrid : rid ≠ "")
    (hfind : jsFindIndex (fun item => item.id == rid) H = some i)
    (hb : hu.content.length ≤ (cl + 1) / 2) :
    save_chat_history H hu hr cl (some rid) uuid tok
      = H.take i ++ [{ hr with content := tok }] := by
  have hle : ((hu.content.length : Int)) ≤ (((cl + 1) / 2 : Nat) : Int) := by
    exact_mod_cast hb
  simp only [save_chat_history]
  rw [if_neg hrid, hfind]
  exact trimOldest_of_le hle _

/-- Witness for C1's amended theorem at a concrete two-entry history,
regenerating on the assistant id "b". -/
theorem claim1_witness :
    save_chat_history [ceU, ceA] ceHu ceHr 100 (some "b") "fresh" "tok"
      = [ceU, ceA].take 1 ++ [{ ceHr with content := "tok" }] :=
  claim1_regenerate_truncates [ceU, ceA] ceHu ceHr 100 "b" "fresh" "tok" 1
    (by decide) (by decide) (by decide)

/-- Claim C1 counterexample: regenerating on the assistant id "b" of a
two-entry history yields the one retained entry plus a single fresh assistant
entry (2 entries), not the retained prefix plus a fresh (user, assistant)
pair (which would be 3 entries): the claim as stated is false on the code. -/
theorem claim1_counterexample :
    save_chat_history [ceU, ceA] ceHu ceHr 100 (some "b") "fresh" "tok"
        = [ceU, { ceHr with content := "tok" }]
      ∧ (save_chat_history [ceU, ceA] ceHu ceHr 100 (some "b") "fresh" "tok").length
          ≠ ([ceU, ceA].take 1).length + 2 := by
  constructor
  · decide
  · decide

/-- Claim C2, amended: when a chat stream is aborted, the persisted
assistant entry has content equal to the localized interrupted token
concatenated with the buffered assistant content; and PROVIDED the new user
content is within the trim budget (length at most round(0.5 ×
context_length)), the persisted turn closes a well-formed (user, assistant)
pair appended after the unchanged prior history.  The budget proviso is
necessary: with an over-budget user content the trim loop of
`save_chat_history` drops the freshly pushed user entry and the persisted
history ends in a lone assistant entry (see the counterexample).  The save
path is the repository's `save_chat_history` (which persists the placeholder
pair) followed by the spec-modelled `abort_finalize` (the streaming
controller is not among the sources); the other hypotheses state what the
controller guarantees: alternating prior history, user/assistant roles, and
a fresh assistant id. -/
theorem claim2_abort_interrupted (H : List ChatHistory) (hu hr : ChatHistory)
    (cl : Nat) (uuid tok buf : String)
    (halt : alternating H = true)
    (hurole : hu.role = "user") (hrrole : hr.role = "assistant")
    (hfresh : ∀ e ∈ H, (e.id == hr.id) = false)
    (huid : (uuid == hr.id) = false)
    (hb : hu.content.length ≤ (cl + 1) / 2) :
    abort_finalize (save_chat_history H hu hr cl none uuid tok) hr tok buf
        = H ++ [{ hu with id := uuid, tokens := hu.content.length },
                { hr with content := tok ++ buf }]
      ∧ alternating
          (abort_finalize (save_chat_history H hu hr cl none uuid tok) hr tok buf)
          = true := by
  have heq : abort_finalize (save_chat_history H hu hr cl none uuid tok) hr tok buf
      = H ++ [{ hu with id := uuid, tokens := hu.content.length },
              { hr with content := tok ++ buf }] := by
    rw [save_no_regen H hu hr cl uuid tok hb]
    unfold abort_finalize
    exact set_chat_history_pair H _ _ _ hr.id hfresh huid (by simp)
  refine ⟨heq, ?_⟩
  rw [heq]
  exact alternating_append_pair { hu with id := uuid, tokens := hu.content.length }
    { hr with content := tok ++ buf } (by simpa using hurole) (by simpa using hrrole) H halt

/-- Witness for C2 at an empty prior history: one delta "he" buffered before
the abort, interrupted token "INT". -/
theorem claim2_witness :
    (abort_finalize (save_chat_history [] ceHu ceHr 100 none "u1" "INT") ceHr "INT" "he"
        = [] ++ [{ ceHu with id := "u1", tokens := ceHu.content.length },
                 { ceHr with content := "INT" ++ "he" }])
      ∧ alternating
          (abort_finalize (save_chat_history [] ceHu ceHr 100 none "u1" "INT") ceHr "INT" "he")
          = true :=
  claim2_abort_interrupted [] ceHu ceHr 100 "u1" "INT" "he" rfl rfl rfl
    (by simp) (by decide) (by decide)

/-- Claim C2 counterexample: aborting the very first turn of a conversation
whose user content (5 characters) exceeds the trim budget
(round(0.5 × 4) = 2) persists a single assistant entry: the trim loop of
`save_chat_history` shifts the freshly pushed user entry away, so the
persisted history after the abort finalisation is a lone assistant entry and
not a well-formed (user, assistant) pair — the claim as stated is false on
the code. -/
theorem claim2_counterexample :
    abort_finalize
        (save_chat_history [] (mkEntry "" "user" "hello") ceHr 4 none "u1" "INT")
        ceHr "INT" "he"
        = [{ ceHr with content := "INT" ++ "he" }]
      ∧ alternating
          (abort_finalize
            (save_chat_history [] (mkEntry "" "user" "hello") ceHr 4 none "u1" "INT")
            ceHr "INT" "he")
          = false := by
  decide

/-- Claim C3, amended: saving a turn without `regenerate_id`, with a
user-role question, an assistant-role answer and the new user content within
the trim budget, preserves the even-length user/assistant alternation
invariant; the invariant is NOT preserved by every operation — in particular
`delete_chat_history` removes a single entry (see the counterexample). -/
theorem claim3_alternation_preserved (H : List ChatHistory) (hu hr : ChatHistory)
    (cl : Nat) (uuid tok : String)
    (halt : alternating H = true)
    (hurole : hu.role = "user") (hrrole : hr.role = "assistant")
    (hb : hu.content.length ≤ (cl + 1) / 2) :
    alternating (save_chat_history H hu hr cl none uuid tok) = true := by
  rw [save_no_regen H hu hr cl uuid tok hb]
  exact alternating_append_pair { hu with id := uuid, tokens := hu.content.length }
    { hr with content := tok } (by simpa using hurole) (by simpa using hrrole) H halt

/-- Witness for C3's amended theorem. -/
theorem claim3_witness :
    alternating (save_chat_history [] ceHu ceHr 10 none "u1" "INT") = true :=
  claim3_alternation_preserved [] ceHu ceHr 10 "u1" "INT" rfl rfl rfl (by decide)

/-- Claim C3 counterexample: deleting the assistant entry "b" of a
well-formed two-entry history leaves a single-entry, odd-length history, so
`delete_chat_history` does not preserve the parity/alternation invariant and
the claim as stated is false on the code. -/
theorem claim3_counterexample :
    alternating [ceU, ceA] = true
      ∧ alternating (delete_chat_history [ceU, ceA] "b") = false
      ∧ (delete_chat_history [ceU, ceA] "b").length % 2 = 1 := by
  decide

/-- Claim C4, amended: the character sum of the list assembled by
`build_chat_history` is at most `round(0.5 × context_length)` (the budget the
code actually computes, rounding half up) plus the length of the current user
content.  The claim's real-valued bound `0.5 × context_length` fails for odd
context lengths (see the counterexample). -/
theorem claim4_context_budget (H : List ChatHistory) (ctx : ChatContext) (cl : Nat) :
    msgSum (build_chat_history H ctx cl) ≤ (cl + 1) / 2 + ctx.content.length := by
  have key := dropWhileBudget_sum (((cl + 1) / 2 : Nat) : Int) (ctx.content.length : Int) H
      ((ctx.content.length : Int) + (histSum H : Int)) rfl
  simp only [build_chat_history]
  set R := dropWhileBudget (((cl + 1) / 2 : Nat) : Int)
      ((ctx.content.length : Int) + (histSum H : Int)) H with hR
  have hcomp : ((fun m : Msg => m.content.length) ∘ toMsg)
      = (fun h : ChatHistory => h.content.length) := funext (fun _ => rfl)
  have hsum : msgSum (R.map toMsg ++ [{ role := ctx.role, content := ctx.content }])
      = histSum R + ctx.content.length := by
    simp [msgSum, histSum, List.map_map, hcomp]
  rw [hsum]
  rcases key with h | h
  · rw [h]
    simp [histSum]
  · have h2 : histSum R + ctx.content.length ≤ (cl + 1) / 2 := by exact_mod_cast h
    omega

/-- Claim C4 counterexample: with context_length 3, an empty current user
content and one stored entry of content length 2, the assembled character
sum is 2, which exceeds the claimed bound 0.5 × 3 + 0 = 1.5 (stated here in
doubled form to stay in the integers). -/
theorem claim4_counterexample :
    2 * msgSum (build_chat_history [mkEntry "x" "user" "ab"] ctx0 3)
      > 3 + 2 * ctx0.content.length := by
  decide

/-- Claim C5: `build_chat_history` returns a contiguous suffix of the stored
history (oldest entries dropped first), each entry projected to
`{role, content}` in stored order, with the current user turn appended as the
last element regardless of the budget. -/
theorem claim5_contiguous_suffix (H : List ChatHistory) (ctx : ChatContext) (cl : Nat) :
    ∃ k, k ≤ H.length ∧
      build_chat_history H ctx cl
        = (H.drop k).map toMsg ++ [{ role := ctx.role, content := ctx.content }] := by
  obtain ⟨k, hk, hdrop⟩ := dropWhileBudget_suffix (((cl + 1) / 2 : Nat) : Int) H
      ((ctx.content.length : Int) + (histSum H : Int))
  refine ⟨k, hk, ?_⟩
  simp only [build_chat_history]
  rw [hdrop]

/-- Claim C6: `create_chat` stores and returns a config whose title has
length at most 18; a longer supplied title is truncated to its first 18
characters and a shorter one is stored unchanged. -/
theorem claim6_title_truncated (store : String → Option ContextConfig)
    (model parameters title uuid : String) (time : Nat)
    (getContextPath : String → String) :
    (create_chat_save store model parameters title uuid time getContextPath).2 uuid
        = some (create_chat_save store model parameters title uuid time getContextPath).1
      ∧ (create_chat_save store model parameters title uuid time getContextPath).1.title
        = (if title.length > 18 then jsSubstring title 18 else title)
      ∧ (create_chat_save store model parameters title uuid time getContextPath).1.title.length
        ≤ 18 := by
  refine ⟨by simp [create_chat_save], rfl, ?_⟩
  simp only [create_chat_save, create_chat]
  by_cases h : title.length > 18
  · simp only [h, if_true, if_pos]
    show (title.data.take 18).length ≤ 18
    rw [List.length_take]
    omega
  · simp only [h, if_false, if_neg, not_false_iff]
    show title.length ≤ 18
    omega

/-- Claim C7 counterexample: the assistant entry persisted by
`save_chat_history` keeps its caller-supplied `tokens` (here 5) even though
its persisted content is the 11-character interrupted placeholder, so not
every persisted entry has `tokens = len(content)`. -/
theorem claim7_counterexample :
    save_chat_history [] (mkEntry "" "user" "q") c7res 100 none "fresh" "INTERRUPTED"
        = [{ mkEntry "" "user" "q" with id := "fresh", tokens := 1 },
           { c7res with content := "INTERRUPTED" }]
      ∧ ¬ (({ c7res with content := "INTERRUPTED" } : ChatHistory).tokens
          = ({ c7res with content := "INTERRUPTED" } : ChatHistory).content.length) := by
  decide

/-- Claim C7, amended: on a turn save (no regeneration, user content within
the trim budget) the persisted user entry carries `tokens` equal to its
content length, while the persisted assistant entry keeps the caller-supplied
`tokens` field unchanged (it is not recomputed after the content is replaced
by the interrupted placeholder). -/
theorem claim7_tokens_field (H : List ChatHistory) (hu hr : ChatHistory)
    (cl : Nat) (uuid tok : String)
    (hb : hu.content.length ≤ (cl + 1) / 2) :
    save_chat_history H hu hr cl none uuid tok
        = H ++ [{ hu with id := uuid, tokens := hu.content.length },
                { hr with content := tok }]
      ∧ ({ hu with id := uuid, tokens := hu.content.length } : ChatHistory).tokens
          = hu.content.length
      ∧ ({ hr with content := tok } : ChatHistory).tokens = hr.tokens :=
  ⟨save_no_regen H hu hr cl uuid tok hb, rfl, rfl⟩

/-- Witness for C7's amended theorem. -/
theorem claim7_witness :
    (save_chat_history [] ceHu ceHr 100 none "fresh" "INT"
        = [] ++ [{ ceHu with id := "fresh", tokens := ceHu.content.length },
                 { ceHr with content := "INT" }])
      ∧ ({ ceHu with id := "fresh", tokens := ceHu.content.length } : ChatHistory).tokens
          = ceHu.content.length
      ∧ ({ ceHr with content := "INT" } : ChatHistory).tokens = ceHr.tokens :=
  claim7_tokens_field [] ceHu ceHr 100 "fresh" "INT" (by decide)

/-- Claim C8: `readJsonFile` returns the empty-array fallback whenever the
backing file is missing, empty, or holds content the JSON parser rejects;
`read_chat`, `read_history` and `get_chat_list` all read through it and so
never propagate a parse error on such files. -/
theorem claim8_corrupt_reads_empty {J : Type} (fs : String → Option String)
    (parse : String → Option J) (filePath : String)
    (h : fs filePath = none ∨ fs filePath = some ""
        ∨ ∃ c, fs filePath = some c ∧ parse c = none) :
    readJsonFile fs parse filePath = JsonReadResult.emptyArr := by
  rcases h with h | h | ⟨c, hc, hp⟩
  · simp [readJsonFile, h]
  · simp [readJsonFile, h]
  · by_cases hlen : c.length = 0
    · simp [readJsonFile, hc, hlen]
    · simp [readJsonFile, hc, hlen, hp]

/-- Witness for C8 at a filesystem with no files. -/
theorem claim8_witness :
    ((fun _ : String => (none : Option String)) "p" = none
        ∨ (fun _ : String => (none : Option String)) "p" = some ""
        ∨ ∃ c, (fun _ : String => (none : Option String)) "p" = some c
            ∧ (fun _ : String => (none : Option Nat)) c = none)
      ∧ readJsonFile (fun _ : String => (none : Option String))
          (fun _ : String => (none : Option Nat)) "p" = JsonReadResult.emptyArr :=
  ⟨Or.inl rfl, claim8_corrupt_reads_empty _ _ _ (Or.inl rfl)⟩

/-- Claim C9: reading a conversation immediately after `create_chat` returns
exactly the created config: same model, parameters, truncated title,
contextPath, context_id and create_time. -/
theorem claim9_create_read_roundtrip (store : String → Option ContextConfig)
    (model parameters title uuid : String) (time : Nat)
    (getContextPath : String → String) :
    read_chat (create_chat_save store model parameters title uuid time getContextPath).2 uuid
        = some (create_chat_save store model parameters title uuid time getContextPath).1
      ∧ (create_chat_save store model parameters title uuid time getContextPath).1.model
          = model
      ∧ (create_chat_save store model parameters title uuid time getContextPath).1.parameters
          = parameters
      ∧ (create_chat_save store model parameters title uuid time getContextPath).1.title
          = (if title.length > 18 then jsSubstring title 18 else title)
      ∧ (create_chat_save store model parameters title uuid time getContextPath).1.contextPath
          = getContextPath uuid
      ∧ (create_chat_save store model parameters title uuid time getContextPath).1.context_id
          = uuid
      ∧ (create_chat_save store model parameters title uuid time getContextPath).1.create_time
          = time :=
  ⟨by simp [read_chat, create_chat_save], rfl, rfl, rfl, rfl, rfl, rfl⟩

/-- Claim C10: `get_chat_list` returns exactly the conversations whose config
document is non-empty (as filled by `readEntry`), sorted in descending order
of `create_time`; a config lacking `create_time` is assigned the config
file's birth time in whole seconds, or 0 when the file cannot be stat'ed. -/
theorem claim10_chat_list (dirs : List DirEntry) :
    (get_chat_list dirs).Perm (dirs.filterMap readEntry)
      ∧ List.Sorted createTimeGe (get_chat_list dirs)
      ∧ (∀ (ms : Int) (payload : String),
          (fillCreateTime (DirEntry.mk (some (RawConfig.mk none payload)) (some ms))
              (RawConfig.mk none payload)).create_time
            = ms.fdiv 1000)
      ∧ (∀ payload : String,
          (fillCreateTime (DirEntry.mk (some (RawConfig.mk none payload)) none)
              (RawConfig.mk none payload)).create_time
            = 0) :=
  ⟨List.perm_insertionSort createTimeGe (dirs.filterMap readEntry),
   List.sorted_insertionSort createTimeGe (dirs.filterMap readEntry),
   fun _ _ => rfl, fun _ => rfl⟩
